import Mathlib

/-!
Verification of the rate-limiting and retry-backoff core of the repository
(src/telethon/rate_limiters.py and src/telethon/fork_helpers.py) against its
natural-language specification.

Modelling conventions:

* The sliding-window limiter (`RateLimiter` in rate_limiters.py) works with
  `Decimal` timestamps; it is embedded over `ℚ` and is fully executable.
* The backoff curve (`Backoff` in fork_helpers.py) computes with `math.e`,
  `math.pi`, `numpy.logspace` and `Decimal`; it is embedded over `ℝ`.
  `Decimal(f)` of a float literal is modelled by the decimal value of the literal
  (the difference is below 2^-50 and no claim depends on it).
* Python `round(x, p)` rounds half to even on both `Decimal` and `float`;
  `rndHE` implements exactly that rounding.
* Randomness (`random.SystemRandom` draws) is modelled by explicit draw
  arguments: `JDraw` for the jitter draws of `Backoff.value`, `PDraw` for the
  draws of `Backoff.precomp_v`, and an oracle `BOracle` supplying the draw for
  each precomputation step of `Backoff.__init__`.
* Python exceptions are modelled by `Except Err`; `None` by `Option.none`.
  Reading a `__slots__` attribute that was never assigned raises
  `AttributeError`; out-of-range sequence indexing raises `IndexError`.
-/

/-- Python exceptions that the modelled code can raise. -/
inductive Err : Type
  | runtimeError
  | valueError
  | indexError
  | typeError
  | attributeError
deriving DecidableEq, Repr

/-- The integer that Python round-half-to-even produces for `y`:
the floor when the fractional part is below one half, the ceiling when it is
above, and the even neighbour at an exact tie. -/
def rhe {α : Type} [LinearOrderedField α] [FloorRing α] (y : α) : ℤ :=
  if y - ⌊y⌋ < 1/2 then ⌊y⌋
  else if 1/2 < y - ⌊y⌋ then ⌊y⌋ + 1
  else if Even ⌊y⌋ then ⌊y⌋ else ⌊y⌋ + 1

/-- Python `round(x, p)`: round half to even at `p` decimal digits. -/
def rndHE {α : Type} [LinearOrderedField α] [FloorRing α] (p : ℕ) (x : α) : α :=
  (rhe (x * 10 ^ p) : α) / 10 ^ p

/-! ## Sliding-window limiter (rate_limiters.py, class RateLimiter)

State of one `RateLimiter` object.  `disabled` is `none` when the slot was
never assigned (the enabled path of `__init__` does not write it);
`calls_q = none` and `has_lock = false` model the `__calls_q__` and
`__lock__` slots being unset, which happens exactly when `__init__` returned
early on `window_size_sec <= 0`. -/
structure RateLimiter : Type where
  disabled : Option Bool
  window_size_sec : ℚ
  max_burst_limit : ℚ
  calls_q : Option (List ℚ)
  has_lock : Bool
deriving DecidableEq, Repr

/-- `RateLimiter.__init__`: normalises the burst limit to
`max(floor(burst_limit) - 1, 1)`, stores the window size, and on
`window_size_sec <= 0` sets `disabled = True` and returns before creating the
queue and the locks. -/
def RateLimiter.init (burst_limit window_size_sec : ℚ) : RateLimiter :=
  let mb : ℚ := max ((⌊burst_limit⌋ : ℚ) - 1) 1
  if window_size_sec ≤ 0 then
    ⟨some true, window_size_sec, mb, none, false⟩
  else
    ⟨none, window_size_sec, mb, some [], true⟩

/-- `RateLimiter.sleep_seconds`: `min(round(window + q[0] - q[-1], 4), window)`.
Only called with a non-empty queue in the source; the `head!`/`getLast!`
defaults are never exercised there. -/
def sleep_seconds (w : ℚ) (q : List ℚ) : ℚ :=
  min (rndHE 4 (w + q.head! - q.getLast!)) w

/-- `RateLimiter.__enter__` (and, with the same shared state, `__aenter__`):
acquires the lock, and if the queue has reached the burst limit computes the
sleep duration, sleeping only when it exceeds 0.0001 s.  The result is the
number of seconds slept.  On a disabled instance the lock slot was never
assigned, so the attribute read raises. -/
def RateLimiter.enter (rl : RateLimiter) : Except Err ℚ :=
  if ¬ rl.has_lock then .error .attributeError
  else
    match rl.calls_q with
    | none => .error .attributeError
    | some q =>
      if (q.length : ℚ) ≥ rl.max_burst_limit then
        (if sleep_seconds rl.window_size_sec q > 1/10000 then
          .ok (sleep_seconds rl.window_size_sec q)
        else .ok 0)
      else .ok 0

/-- The trimming loop at the end of `exit_shared`:
`while q[-1] - q[0] >= window: q.popleft()`.  In the source the loop always
terminates with a non-empty queue because it runs right after an append and
the window size of an enabled limiter is positive; the `[]` base case is
unreachable there. -/
def trim (w : ℚ) : List ℚ → List ℚ
  | [] => []
  | x :: xs => if (x :: xs).getLast! - x ≥ w then trim w xs else x :: xs

/-- `RateLimiter.exit_shared(now)`: clear the queue when the newest recorded
timestamp already fell out of the window, append `round(now, 4)`, then trim
from the front. -/
def exit_shared (q : List ℚ) (now w : ℚ) : List ℚ :=
  let q1 := if 0 < q.length ∧ now - w ≥ q.getLast! then ([] : List ℚ) else q
  trim w (q1 ++ [rndHE 4 now])

/-- `RateLimiter.__exit__` (and `__aexit__`): takes the current time, acquires
the lock and runs `exit_shared`.  On a disabled instance the lock slot was
never assigned, so the attribute read raises. -/
def RateLimiter.exit (rl : RateLimiter) (now : ℚ) : Except Err RateLimiter :=
  if ¬ rl.has_lock then .error .attributeError
  else
    match rl.calls_q with
    | none => .error .attributeError
    | some q =>
      .ok ⟨rl.disabled, rl.window_size_sec, rl.max_burst_limit,
           some (exit_shared q now rl.window_size_sec), rl.has_lock⟩

/-! ## Backoff curve (fork_helpers.py, class Backoff)

Class-level constants.  `HALF_PIE = float(round(Decimal(math.pi) / Decimal(2), 3))`
evaluates to 1.571 (pi/2 = 1.5707963... rounded to three decimals; the
justification is proved below in `c3_amended_jitter_constants`). -/
def HALF_PIE : ℝ := 1.571

namespace Backoff

def PRECISION : ℕ := 3
def MIN : ℝ := 0.01
def MAX : ℝ := 302400.012
def MAX_ATTEMPTS : ℤ := 100

end Backoff

/-- `Backoff.JITTER_TOP_LIM = Decimal(pow(math.e, HALF_PIE) * 1.111)`. -/
noncomputable def Backoff.JITTER_TOP_LIM : ℝ := Real.exp HALF_PIE * 1.111

/-- The exponent endpoint of the precomputed curve:
`log(self._max_value, self._base)` with base 2 and max 302400.012. -/
noncomputable def logspace_stop : ℝ := Real.logb 2 302400.012

/-- Entry `i` of the 100-tuple `self._logspace`:
`np.logspace(2.0, log2(302400.012), num=100, base=2.0)` places the exponents
linearly, so entry `i` is `2 ^ (2 + i * (stop - 2) / 99)`. -/
noncomputable def logspace (i : ℕ) : ℝ :=
  (2 : ℝ) ^ ((2 : ℝ) + (i : ℝ) * ((logspace_stop - 2) / 99))

/-- Python sequence indexing `t.__getitem__(i)` on a length-`n` tuple whose
entry `k` is `f k`: non-negative indices below `n` and negative indices wrapped
by `n` succeed, anything else raises `IndexError` (modelled by `none`). -/
noncomputable def tupleGet (f : ℕ → ℝ) (n : ℕ) (i : ℤ) : Option ℝ :=
  if 0 ≤ i ∧ i < (n : ℤ) then some (f i.toNat)
  else if -(n : ℤ) ≤ i ∧ i < 0 then some (f (i + n).toNat)
  else none

/-- Python list indexing `l.__getitem__(i)` with negative-index wrapping. -/
def listGet {β : Type} (l : List β) (i : ℤ) : Option β :=
  if 0 ≤ i then l.get? i.toNat
  else if -(l.length : ℤ) ≤ i then l.get? (i + l.length).toNat
  else none

/-- Python truthiness of `self._last_value`: `None` and `0.0` are falsy. -/
def pyTruthy : Option ℝ → Prop
  | none => False
  | some v => v ≠ 0

/-- The saturation-latch test of `Backoff.value`:
`self._last_value and self._last_value >= self._max_value`. -/
def Backoff.latched (last : Option ℝ) : Prop :=
  pyTruthy last ∧ Backoff.MAX ≤ last.getD 0

/-- `Backoff.__conform_to_range_and_type`: clamp into `[MIN, MAX]`
(`max([min([max_value, result]), min_value])`) and round to 3 decimals. -/
noncomputable def conform (x : ℝ) : ℝ :=
  rndHE Backoff.PRECISION (max (min Backoff.MAX x) Backoff.MIN)

/-- One random draw consumed by the jitter branch of `Backoff.value`:
`op` is the operator chosen from `[add, sub]` (`true` = add) and `u` is the
`uniform(float(self._min_value), HALF_PIE)` draw. -/
structure JDraw : Type where
  op : Bool
  u : ℝ

/-- The jitter applied by `Backoff.value` above the threshold:
`choice([add, sub])(result, Decimal(pow(e, uniform(min, HALF_PIE))))`;
below or at the threshold the raw value passes through unchanged. -/
noncomputable def jitted (raw : ℝ) (d : JDraw) : ℝ :=
  if raw > Backoff.JITTER_TOP_LIM then
    (if d.op then raw + Real.exp d.u else raw - Real.exp d.u)
  else raw

open scoped Classical in
/-- `Backoff.value(attempt)`: cap check, saturation latch, `None` for
non-positive attempts, raw-curve lookup (IndexError outside the 100-tuple,
ValueError on a falsy slot), threshold-gated jitter, then clamp-and-round,
which also updates `_last_value`.  Returns the produced value (`none` models
Python `None`) together with the new `_last_value`. -/
noncomputable def Backoff.value (last : Option ℝ) (attempt : ℤ) (d : JDraw) :
    Except Err (Option ℝ) × Option ℝ :=
  if attempt > Backoff.MAX_ATTEMPTS then (.error .runtimeError, last)
  else if Backoff.latched last then (.ok (some (conform Backoff.MAX)), last)
  else if attempt ≤ 0 then (.ok none, last)
  else
    match tupleGet logspace 100 attempt with
    | none => (.error .indexError, last)
    | some raw =>
      if raw = 0 then (.error .valueError, last)
      else (.ok (some (conform (jitted raw d))), some (conform (jitted raw d)))

/-- The random draws consumed by one `Backoff.precomp_v` call: `rint` feeds
the `randint(2, 4)` substitution (modelled as `2 + rint % 3`), `cidx` feeds
`choice` on the pool (modelled as `cidx % len`), and `ra / rb` is
`Backoff.rand_factor() = uniform(1, e) / uniform(1, pi)`. -/
structure PDraw : Type where
  rint : ℕ
  cidx : ℕ
  ra : ℝ
  rb : ℝ

open scoped Classical in
/-- `Backoff.precomp_v(attempt, with_jitter)`: cap check, substitution of a
falsy attempt by `randint(2, 4)`, pool lookup (`IndexError` outside the
100-entry list or on an empty pool), a uniform choice from the pool
(a `None` entry later raises `TypeError`), optional multiplicative jitter,
then clamp-and-round.  The saturation latch is neither read nor written. -/
noncomputable def Backoff.precomp_v (pools : List (List (Option ℝ)))
    (attempt : ℤ) (with_jitter : Bool) (pd : PDraw) : Except Err ℝ :=
  if attempt > Backoff.MAX_ATTEMPTS then .error .runtimeError
  else
    let a : ℤ := if attempt = 0 then (2 + (pd.rint % 3 : ℕ) : ℤ) else attempt
    match listGet pools a with
    | none => .error .indexError
    | some pool =>
      if pool.isEmpty then .error .indexError
      else
        match pool.getD (pd.cidx % pool.length) none with
        | none => .error .typeError
        | some v => .ok (conform (if with_jitter then v * (pd.ra / pd.rb) else v))

/-- The per-step draw oracle for `Backoff.__init__`: `o it k` is the draw
consumed by the `k`-th of the 33 `value(it)` calls that build pool `it`. -/
def BOracle : Type := ℕ → ℕ → JDraw

/-- The inner comprehension of `Backoff.__init__`:
`[self.value(i) for i in [it] * 33]` threaded through `_last_value`, cut off
at `k` entries.  Propagates the first raised exception. -/
noncomputable def poolFold (o : BOracle) (it : ℕ) :
    ℕ → Option ℝ → Except Err (List (Option ℝ) × Option ℝ)
  | 0, last => .ok ([], last)
  | k + 1, last =>
    match poolFold o it k last with
    | .error e => .error e
    | .ok (es, l1) =>
      match Backoff.value l1 (it : ℤ) (o it k) with
      | (.error e, _) => .error e
      | (.ok v, l2) => .ok (es ++ [v], l2)

/-- The outer comprehension of `Backoff.__init__`:
`[[self.value(i) for i in [it] * 33] for it in range(0, MAX_ATTEMPTS)]`,
cut off after the first `it` pools, starting from `_last_value = None`. -/
noncomputable def initFold (o : BOracle) :
    ℕ → Except Err (List (List (Option ℝ)) × Option ℝ)
  | 0 => .ok ([], none)
  | it + 1 =>
    match initFold o it with
    | .error e => .error e
    | .ok (ps, l) =>
      match poolFold o it 33 l with
      | .error e => .error e
      | .ok (p, l1) => .ok (ps ++ [p], l1)

/-- The `Backoff` instance state produced by `__init__`: the final
`_last_value` and the `precomputed` pool table (the `_logspace` tuple is the
global `logspace`). -/
structure BackoffState : Type where
  lastValue : Option ℝ
  precomputed : List (List (Option ℝ))

/-- `Backoff.__init__` with draw oracle `o`. -/
noncomputable def initBackoff (o : BOracle) : Except Err BackoffState :=
  match initFold o 100 with
  | .error e => .error e
  | .ok (ps, l) => .ok ⟨l, ps⟩

/-- The all-add oracle: every jitter draw chooses the `add` operator. -/
def oAdd : BOracle := fun _ _ => ⟨true, 1⟩

/-- The all-sub oracle: every jitter draw chooses the `sub` operator. -/
def oSub : BOracle := fun _ _ => ⟨false, 1⟩

open scoped Classical in
/-- `delay_with_jitter(delay, min_val)` from fork_helpers.py, with the module
global `__bo__.precomputed` passed as `pools` and the random draws as `pd`:
draws `jitter = precomp_v(0, with_jitter=True)`, adds `1.000 / jitter` to a
truthy delay (otherwise starts from `jitter`), then applies the minimum-value
adjustment. -/
noncomputable def delay_with_jitter (pools : List (List (Option ℝ)))
    (pd : PDraw) (delay min_val : Option ℝ) : Except Err ℝ :=
  match Backoff.precomp_v pools 0 true pd with
  | .error e => .error e
  | .ok jitter =>
    let d1 : ℝ := if pyTruthy delay then delay.getD 0 + 1 / jitter else jitter
    if pyTruthy min_val ∧ d1 ≤ min_val.getD 0 then
      (if d1 ≤ min_val.getD 0 * 0.777 then .ok (d1 + min_val.getD 0)
       else .ok (d1 + min_val.getD 0 / 2))
    else .ok d1

open scoped Classical in
/-- `next_delay` exactly as the specification words it (section 4.4):
jitter from the pooled sampler with jitter requested; if `previous_delay` is
set and non-zero the delay is `previous_delay + 1.0 / jitter`, otherwise the
delay is `jitter`; if `min_val` is set and `delay <= min_val` then `min_val`
is added when `delay <= 0.777 * min_val` and `min_val / 2` otherwise; the
result is returned without further clamping. -/
noncomputable def nextDelaySpec (jitter : ℝ) (previous_delay min_val : Option ℝ) : ℝ :=
  let delay : ℝ :=
    match previous_delay with
    | some p => if p = 0 then jitter else p + 1.0 / jitter
    | none => jitter
  match min_val with
  | some m =>
    if delay ≤ m then (if delay ≤ 0.777 * m then delay + m else delay + m / 2)
    else delay
  | none => delay

/-! ## Properties of the rounding primitive -/

theorem rhe_ge_floor {α : Type} [LinearOrderedField α] [FloorRing α] (y : α) :
    ⌊y⌋ ≤ rhe y := by
  unfold rhe; split_ifs <;> omega

theorem rhe_le_floor_succ {α : Type} [LinearOrderedField α] [FloorRing α] (y : α) :
    rhe y ≤ ⌊y⌋ + 1 := by
  unfold rhe; split_ifs <;> omega

theorem rhe_ge {α : Type} [LinearOrderedField α] [FloorRing α] (y : α) :
    y - 1/2 ≤ (rhe y : α) := by
  have h1 := Int.floor_le y
  have h2 := Int.lt_floor_add_one y
  unfold rhe; split_ifs <;> push_cast <;> linarith

theorem rhe_le {α : Type} [LinearOrderedField α] [FloorRing α] (y : α) :
    (rhe y : α) ≤ y + 1/2 := by
  have h1 := Int.floor_le y
  have h2 := Int.lt_floor_add_one y
  unfold rhe; split_ifs <;> push_cast <;> linarith

theorem rhe_mono {α : Type} [LinearOrderedField α] [FloorRing α] {y z : α}
    (h : y ≤ z) : rhe y ≤ rhe z := by
  rcases lt_or_le ⌊y⌋ ⌊z⌋ with hf | hf
  · calc rhe y ≤ ⌊y⌋ + 1 := rhe_le_floor_succ y
      _ ≤ ⌊z⌋ := by omega
      _ ≤ rhe z := rhe_ge_floor z
  · have hfe : ⌊y⌋ = ⌊z⌋ := le_antisymm (Int.floor_mono h) hf
    unfold rhe
    rw [hfe]
    split_ifs <;> first | omega | linarith

theorem rhe_intCast {α : Type} [LinearOrderedField α] [FloorRing α] (n : ℤ) :
    rhe ((n : α)) = n := by
  unfold rhe
  rw [Int.floor_intCast, if_pos (by norm_num : (n : α) - (n : α) < 1/2)]

theorem rndHE_le {α : Type} [LinearOrderedField α] [FloorRing α] (p : ℕ) (x : α) :
    rndHE p x ≤ x + 1 / (2 * 10 ^ p) := by
  have hT : (0:α) < 10 ^ p := by positivity
  have h := rhe_le (x * 10 ^ p)
  unfold rndHE
  rw [div_le_iff₀ hT]
  have he : (x + 1 / (2 * 10 ^ p)) * 10 ^ p = x * 10 ^ p + 1/2 := by
    field_simp; ring
  rw [he]; exact h

theorem rndHE_ge {α : Type} [LinearOrderedField α] [FloorRing α] (p : ℕ) (x : α) :
    x - 1 / (2 * 10 ^ p) ≤ rndHE p x := by
  have hT : (0:α) < 10 ^ p := by positivity
  have h := rhe_ge (x * 10 ^ p)
  unfold rndHE
  rw [le_div_iff₀ hT]
  have he : (x - 1 / (2 * 10 ^ p)) * 10 ^ p = x * 10 ^ p - 1/2 := by
    field_simp; ring
  rw [he]; exact h

theorem rndHE_mono {α : Type} [LinearOrderedField α] [FloorRing α] (p : ℕ)
    {x y : α} (h : x ≤ y) : rndHE p x ≤ rndHE p y := by
  have hT : (0:α) < 10 ^ p := by positivity
  unfold rndHE
  rw [div_le_div_iff_of_pos_right hT]
  exact_mod_cast rhe_mono (mul_le_mul_of_nonneg_right h hT.le)

theorem rndHE_exact {α : Type} [LinearOrderedField α] [FloorRing α] (p : ℕ)
    (x : α) (n : ℤ) (h : x * 10 ^ p = (n : α)) : rndHE p x = x := by
  have hT : (0:α) < 10 ^ p := by positivity
  unfold rndHE
  rw [h, rhe_intCast, ← h]
  field_simp

/-! ## Properties of the clamp-and-round step and of the numeric constants -/

theorem MIN_le_MAX : Backoff.MIN ≤ Backoff.MAX := by
  norm_num [Backoff.MIN, Backoff.MAX]

theorem rndHE_MAX : rndHE 3 Backoff.MAX = Backoff.MAX :=
  rndHE_exact 3 _ 302400012 (by norm_num [Backoff.MAX])

theorem conform_eq_of_ge_MAX {x : ℝ} (h : Backoff.MAX ≤ x) :
    conform x = Backoff.MAX := by
  unfold conform Backoff.PRECISION
  rw [min_eq_left h, max_eq_left MIN_le_MAX]
  exact rndHE_MAX

theorem conform_le_MAX (x : ℝ) : conform x ≤ Backoff.MAX := by
  unfold conform Backoff.PRECISION
  calc rndHE 3 (max (min Backoff.MAX x) Backoff.MIN)
      ≤ rndHE 3 Backoff.MAX := rndHE_mono 3 (max_le (min_le_left _ _) MIN_le_MAX)
    _ = Backoff.MAX := rndHE_MAX

theorem conform_id_of {x : ℝ} (h1 : Backoff.MIN ≤ x) (h2 : x ≤ Backoff.MAX) :
    conform x = rndHE 3 x := by
  unfold conform Backoff.PRECISION
  rw [min_eq_right h2, max_eq_left h1]

theorem conform_lt_MAX {x : ℝ} (h : x ≤ Backoff.MAX - 1) :
    conform x < Backoff.MAX := by
  unfold conform Backoff.PRECISION
  have h1 : max (min Backoff.MAX x) Backoff.MIN ≤ Backoff.MAX - 1 :=
    max_le (le_trans (min_le_right _ _) h) (by norm_num [Backoff.MIN, Backoff.MAX])
  have h2 := rndHE_le 3 (max (min Backoff.MAX x) Backoff.MIN)
  have h3 : (1:ℝ) / (2 * 10 ^ (3:ℕ)) < 1 := by norm_num
  linarith

theorem exp_two_ub : Real.exp 2 ≤ 7.389057 := by
  have h : Real.exp 2 = Real.exp 1 * Real.exp 1 := by
    rw [← Real.exp_add]; norm_num
  have h1 := Real.exp_one_lt_d9.le
  have h2 := (Real.exp_pos 1).le
  nlinarith

theorem JTL_ub : Backoff.JITTER_TOP_LIM ≤ 8.21 := by
  unfold Backoff.JITTER_TOP_LIM HALF_PIE
  have h1 : Real.exp 1.571 ≤ Real.exp 2 := Real.exp_le_exp.mpr (by norm_num)
  have h2 := exp_two_ub
  nlinarith

theorem exp_threehalves_lb : (4.48:ℝ) ≤ Real.exp 1.5 := by
  have h3 : Real.exp 1 * (Real.exp 1 * Real.exp 1) = Real.exp 3 := by
    rw [← Real.exp_add, ← Real.exp_add]; norm_num
  have h : Real.exp 1.5 * Real.exp 1.5 = Real.exp 3 := by
    rw [← Real.exp_add]; norm_num
  have e1 := Real.exp_one_gt_d9.le
  have hp := (Real.exp_pos 1).le
  nlinarith [Real.exp_pos 1.5]

theorem JTL_lb : (4.97:ℝ) ≤ Backoff.JITTER_TOP_LIM := by
  unfold Backoff.JITTER_TOP_LIM HALF_PIE
  have h1 : Real.exp 1.5 ≤ Real.exp 1.571 := Real.exp_le_exp.mpr (by norm_num)
  have h2 := exp_threehalves_lb
  nlinarith

theorem logspace_stop_lb : (18:ℝ) ≤ logspace_stop := by
  unfold logspace_stop
  rw [Real.le_logb_iff_rpow_le (by norm_num) (by norm_num)]
  rw [show (18:ℝ) = ((18:ℕ):ℝ) by norm_num, Real.rpow_natCast]
  norm_num

theorem logspace_stop_ub : logspace_stop ≤ 19 := by
  unfold logspace_stop
  rw [Real.logb_le_iff_le_rpow (by norm_num) (by norm_num)]
  rw [show (19:ℝ) = ((19:ℕ):ℝ) by norm_num, Real.rpow_natCast]
  norm_num

theorem logspace_mono {i j : ℕ} (h : i ≤ j) : logspace i ≤ logspace j := by
  unfold logspace
  rw [Real.rpow_le_rpow_left_iff (by norm_num : (1:ℝ) < 2)]
  have hs : (0:ℝ) ≤ (logspace_stop - 2) / 99 := by
    have := logspace_stop_lb; linarith
  have hij : (i:ℝ) ≤ (j:ℝ) := by exact_mod_cast h
  have := mul_le_mul_of_nonneg_right hij hs
  linarith

theorem logspace_pos (i : ℕ) : 0 < logspace i :=
  Real.rpow_pos_of_pos (by norm_num) _

theorem logspace_99 : logspace 99 = Backoff.MAX := by
  unfold logspace Backoff.MAX
  have h : (2:ℝ) + ((99:ℕ):ℝ) * ((logspace_stop - 2) / 99) = logspace_stop := by
    push_cast; ring
  rw [h]
  unfold logspace_stop
  rw [Real.rpow_logb (by norm_num) (by norm_num) (by norm_num)]

theorem logspace_le_MAX {i : ℕ} (h : i ≤ 99) : logspace i ≤ Backoff.MAX :=
  logspace_99 ▸ logspace_mono h

theorem rpow_le_of_pow_le {a : ℝ} (n d : ℕ) (hd : d ≠ 0)
    (ha : a ≤ (n:ℝ) / (d:ℝ)) {c : ℝ} (hc : 0 ≤ c)
    (h : (2:ℝ) ^ (n:ℕ) ≤ c ^ (d:ℕ)) : (2:ℝ) ^ a ≤ c := by
  have hdr : ((d:ℕ):ℝ) ≠ 0 := by exact_mod_cast hd
  have key : ((2:ℝ) ^ ((n:ℝ) / (d:ℝ))) ^ (d:ℕ) = (2:ℝ) ^ (n:ℕ) := by
    rw [← Real.rpow_natCast ((2:ℝ) ^ ((n:ℝ) / (d:ℝ))) d,
      ← Real.rpow_mul (by norm_num : (0:ℝ) ≤ 2),
      div_mul_cancel₀ _ hdr, Real.rpow_natCast]
  calc (2:ℝ) ^ a ≤ (2:ℝ) ^ ((n:ℝ) / (d:ℝ)) :=
        (Real.rpow_le_rpow_left_iff (by norm_num : (1:ℝ) < 2)).mpr ha
    _ ≤ c := by
        apply le_of_pow_le_pow_left hd hc
        rw [key]; exact h

theorem le_rpow_of_le_pow {a : ℝ} (n d : ℕ) (hd : d ≠ 0)
    (ha : (n:ℝ) / (d:ℝ) ≤ a) {c : ℝ}
    (h : c ^ (d:ℕ) ≤ (2:ℝ) ^ (n:ℕ)) : c ≤ (2:ℝ) ^ a := by
  have hdr : ((d:ℕ):ℝ) ≠ 0 := by exact_mod_cast hd
  have key : ((2:ℝ) ^ ((n:ℝ) / (d:ℝ))) ^ (d:ℕ) = (2:ℝ) ^ (n:ℕ) := by
    rw [← Real.rpow_natCast ((2:ℝ) ^ ((n:ℝ) / (d:ℝ))) d,
      ← Real.rpow_mul (by norm_num : (0:ℝ) ≤ 2),
      div_mul_cancel₀ _ hdr, Real.rpow_natCast]
  calc c ≤ (2:ℝ) ^ ((n:ℝ) / (d:ℝ)) := by
        apply le_of_pow_le_pow_left hd (Real.rpow_pos_of_pos (by norm_num) _).le
        rw [key]; exact h
    _ ≤ (2:ℝ) ^ a :=
        (Real.rpow_le_rpow_left_iff (by norm_num : (1:ℝ) < 2)).mpr ha

theorem logspace_1_ub : logspace 1 ≤ 4.56 := by
  unfold logspace
  apply rpow_le_of_pow_le 35 16 (by norm_num) ?_ (by norm_num) (by norm_num)
  have hs := logspace_stop_ub
  push_cast
  linarith

theorem logspace_10_lb : (12.1:ℝ) ≤ logspace 10 := by
  unfold logspace
  apply le_rpow_of_le_pow 18 5 (by norm_num) ?_ (by norm_num)
  have hs := logspace_stop_lb
  push_cast
  linarith

theorem logspace_11_ub : logspace 11 ≤ 14.94 := by
  unfold logspace
  apply rpow_le_of_pow_le 39 10 (by norm_num) ?_ (by norm_num) (by norm_num)
  have hs := logspace_stop_ub
  push_cast
  linarith

theorem logspace_1_le_JTL : logspace 1 ≤ Backoff.JITTER_TOP_LIM :=
  le_trans logspace_1_ub (le_trans (by norm_num) JTL_lb)

theorem JTL_lt_logspace_10 : Backoff.JITTER_TOP_LIM < logspace 10 :=
  lt_of_le_of_lt JTL_ub (lt_of_lt_of_le (by norm_num) logspace_10_lb)

theorem JTL_lt_MAX : Backoff.JITTER_TOP_LIM < Backoff.MAX :=
  lt_of_le_of_lt JTL_ub (by norm_num [Backoff.MAX])

/-! ## Normal forms of Backoff.value -/

theorem not_latched_none : ¬ Backoff.latched none := fun h => h.1

theorem latched_some_MAX : Backoff.latched (some Backoff.MAX) :=
  ⟨by norm_num [pyTruthy, Backoff.MAX], by simp⟩

theorem not_latched_of_lt {v : ℝ} (h : v < Backoff.MAX) :
    ¬ Backoff.latched (some v) := by
  intro hl
  exact absurd hl.2 (by simpa using not_le.mpr h)

theorem value_cap (last : Option ℝ) (a : ℤ) (d : JDraw)
    (ha : Backoff.MAX_ATTEMPTS < a) :
    Backoff.value last a d = (.error .runtimeError, last) := by
  unfold Backoff.value
  rw [if_pos ha]

theorem value_latched (last : Option ℝ) (a : ℤ) (d : JDraw)
    (hl : Backoff.latched last) (ha : a ≤ Backoff.MAX_ATTEMPTS) :
    Backoff.value last a d = (.ok (some Backoff.MAX), last) := by
  unfold Backoff.value
  rw [if_neg (not_lt.mpr ha), if_pos hl, conform_eq_of_ge_MAX le_rfl]

theorem value_nonpos (last : Option ℝ) (a : ℤ) (d : JDraw)
    (hl : ¬ Backoff.latched last) (ha : a ≤ 0) :
    Backoff.value last a d = (.ok none, last) := by
  unfold Backoff.value
  rw [if_neg (not_lt.mpr (le_trans ha (by norm_num [Backoff.MAX_ATTEMPTS])))]
  rw [if_neg hl, if_pos ha]

theorem tupleGet_logspace {a : ℤ} (h1 : 0 ≤ a) (h2 : a < 100) :
    tupleGet logspace 100 a = some (logspace a.toNat) := by
  unfold tupleGet
  rw [if_pos ⟨h1, by exact_mod_cast h2⟩]

theorem value_normal (last : Option ℝ) (a : ℤ) (d : JDraw)
    (hl : ¬ Backoff.latched last) (h1 : 1 ≤ a) (h2 : a ≤ 99) :
    Backoff.value last a d =
      (.ok (some (conform (jitted (logspace a.toNat) d))),
       some (conform (jitted (logspace a.toNat) d))) := by
  unfold Backoff.value
  rw [if_neg (not_lt.mpr (le_trans h2 (by norm_num [Backoff.MAX_ATTEMPTS])))]
  rw [if_neg hl, if_neg (by omega : ¬ a ≤ 0)]
  rw [tupleGet_logspace (by omega) (by omega)]
  simp only []
  rw [if_neg (ne_of_gt (logspace_pos a.toNat))]

theorem value_100_unlatched (last : Option ℝ) (d : JDraw)
    (hl : ¬ Backoff.latched last) :
    Backoff.value last 100 d = (.error .indexError, last) := by
  unfold Backoff.value
  rw [if_neg (by norm_num [Backoff.MAX_ATTEMPTS] : ¬ (100:ℤ) > Backoff.MAX_ATTEMPTS)]
  rw [if_neg hl, if_neg (by norm_num : ¬ (100:ℤ) ≤ 0)]
  have hget : tupleGet logspace 100 (100:ℤ) = none := by
    unfold tupleGet
    rw [if_neg (by norm_num), if_neg (by norm_num)]
  rw [hget]

theorem jitted_below {raw : ℝ} (d : JDraw) (h : raw ≤ Backoff.JITTER_TOP_LIM) :
    jitted raw d = raw := by
  unfold jitted
  rw [if_neg (not_lt.mpr h)]

theorem jitted_add {raw : ℝ} {d : JDraw} (h : Backoff.JITTER_TOP_LIM < raw)
    (hop : d.op = true) : jitted raw d = raw + Real.exp d.u := by
  unfold jitted
  rw [if_pos h, hop, if_pos rfl]

theorem jitted_sub {raw : ℝ} {d : JDraw} (h : Backoff.JITTER_TOP_LIM < raw)
    (hop : d.op = false) : jitted raw d = raw - Real.exp d.u := by
  unfold jitted
  rw [if_pos h, hop]
  simp

/-! ## Invariants of the constructor folds -/

theorem value_ok_of_le (last : Option ℝ) (d : JDraw) (it : ℕ) (hit : it ≤ 99)
    (hinv : last = none ∨ ∃ v, last = some v ∧ v ≤ Backoff.MAX) :
    ∃ r l2, Backoff.value last (it : ℤ) d = (.ok r, l2)
      ∧ (l2 = none ∨ ∃ v, l2 = some v ∧ v ≤ Backoff.MAX)
      ∧ (1 ≤ it → ∃ x, r = some x) := by
  have hcap : (it : ℤ) ≤ Backoff.MAX_ATTEMPTS := by
    norm_num [Backoff.MAX_ATTEMPTS]
    exact_mod_cast le_trans hit (by norm_num)
  by_cases hl : Backoff.latched last
  · exact ⟨some Backoff.MAX, last, value_latched last _ d hl hcap, hinv, fun _ => ⟨_, rfl⟩⟩
  · rcases Nat.eq_zero_or_pos it with h0 | h1
    · subst h0
      exact ⟨none, last, value_nonpos last _ d hl (by norm_num), hinv,
        fun h => absurd h (by norm_num)⟩
    · have hv := value_normal last (it : ℤ) d hl (by exact_mod_cast h1) (by exact_mod_cast hit)
      exact ⟨_, _, hv, Or.inr ⟨_, rfl, conform_le_MAX _⟩, fun _ => ⟨_, rfl⟩⟩

theorem poolFold_ok (o : BOracle) (it : ℕ) (hit : it ≤ 99) (k : ℕ) :
    ∀ last : Option ℝ, (last = none ∨ ∃ v, last = some v ∧ v ≤ Backoff.MAX) →
    ∃ es l2, poolFold o it k last = .ok (es, l2)
      ∧ (l2 = none ∨ ∃ v, l2 = some v ∧ v ≤ Backoff.MAX)
      ∧ es.length = k
      ∧ (1 ≤ it → ∀ x ∈ es, ∃ r, x = some r) := by
  induction k with
  | zero =>
    intro last hinv
    exact ⟨[], last, rfl, hinv, rfl, fun _ x hx => absurd hx (List.not_mem_nil x)⟩
  | succ k ih =>
    intro last hinv
    obtain ⟨es, l1, heq, hinv1, hlen, hsome⟩ := ih last hinv
    obtain ⟨r, l2, hv, hinv2, hval⟩ := value_ok_of_le l1 (o it k) it hit hinv1
    refine ⟨es ++ [r], l2, by simp only [poolFold, heq, hv], hinv2, by simp [hlen], ?_⟩
    intro h1 x hx
    rcases List.mem_append.mp hx with h | h
    · exact hsome h1 x h
    · rw [List.mem_singleton.mp h]
      exact hval h1

theorem poolFold_latched (o : BOracle) (it : ℕ) (hit : it ≤ 100) (k : ℕ) :
    ∃ es, poolFold o it k (some Backoff.MAX) = .ok (es, some Backoff.MAX) := by
  have hcap : (it : ℤ) ≤ Backoff.MAX_ATTEMPTS := by
    norm_num [Backoff.MAX_ATTEMPTS]
    exact_mod_cast le_trans hit (by norm_num)
  induction k with
  | zero => exact ⟨[], rfl⟩
  | succ k ih =>
    obtain ⟨es, heq⟩ := ih
    have hv := value_latched (some Backoff.MAX) (it : ℤ) (o it k) latched_some_MAX hcap
    exact ⟨es ++ [some Backoff.MAX], by simp only [poolFold, heq, hv]⟩

theorem poolFold99_add (o : BOracle) (k : ℕ) :
    ∀ last : Option ℝ, (last = none ∨ ∃ v, last = some v ∧ v ≤ Backoff.MAX) →
    (∃ j, j < k ∧ (o 99 j).op = true) →
    ∃ es, poolFold o 99 k last = .ok (es, some Backoff.MAX) := by
  have hcap : (((99:ℕ)) : ℤ) ≤ Backoff.MAX_ATTEMPTS := by
    norm_num [Backoff.MAX_ATTEMPTS]
  induction k with
  | zero =>
    intro last _ h
    obtain ⟨j, hj, _⟩ := h
    omega
  | succ k ih =>
    intro last hinv hadd
    obtain ⟨j, hjk, hop⟩ := hadd
    by_cases hjlt : ∃ j', j' < k ∧ (o 99 j').op = true
    · obtain ⟨es, heq⟩ := ih last hinv hjlt
      have hv := value_latched (some Backoff.MAX) ((99:ℕ) : ℤ) (o 99 k) latched_some_MAX hcap
      exact ⟨es ++ [some Backoff.MAX], by simp only [poolFold, heq, hv]⟩
    · have hjk' : j = k := by
        rcases Nat.lt_succ_iff_lt_or_eq.mp hjk with h | h
        · exact absurd ⟨j, h, hop⟩ hjlt
        · exact h
      subst hjk'
      obtain ⟨es, l1, heq, hinv1, hl1, hl2⟩ := poolFold_ok o 99 (by norm_num) j last hinv
      by_cases hl : Backoff.latched l1
      · have hv1 : l1 = some Backoff.MAX := by
          rcases hinv1 with h | ⟨v, hv, hle⟩
          · rw [h] at hl; exact absurd hl not_latched_none
          · subst hv
            have h2 : Backoff.MAX ≤ v := by simpa using hl.2
            rw [le_antisymm hle h2]
        rw [hv1] at heq
        have hv := value_latched (some Backoff.MAX) ((99:ℕ) : ℤ) (o 99 j) latched_some_MAX hcap
        exact ⟨es ++ [some Backoff.MAX], by simp only [poolFold, heq, hv]⟩
      · have hv := value_normal l1 ((99:ℕ) : ℤ) (o 99 j) hl (by norm_num) (by norm_num)
        have hraw : logspace (((99:ℕ) : ℤ)).toNat = Backoff.MAX := by
          rw [Int.toNat_natCast, logspace_99]
        have hjit : jitted (logspace (((99:ℕ) : ℤ)).toNat) (o 99 j)
            = Backoff.MAX + Real.exp (o 99 j).u := by
          rw [hraw]
          exact jitted_add JTL_lt_MAX hop
        have hconf : conform (Backoff.MAX + Real.exp (o 99 j).u) = Backoff.MAX :=
          conform_eq_of_ge_MAX (by have := Real.exp_pos (o 99 j).u; linarith)
        rw [hjit, hconf] at hv
        exact ⟨es ++ [some Backoff.MAX], by simp only [poolFold, heq, hv]⟩

theorem initFold_ok (o : BOracle) : ∀ it : ℕ, it ≤ 100 →
    ∃ ps l, initFold o it = .ok (ps, l)
      ∧ (l = none ∨ ∃ v, l = some v ∧ v ≤ Backoff.MAX)
      ∧ ps.length = it
      ∧ ∀ j, j < it → ∃ p, ps.get? j = some p ∧ p.length = 33
          ∧ (1 ≤ j → ∀ x ∈ p, ∃ r, x = some r) := by
  intro it
  induction it with
  | zero =>
    intro _
    exact ⟨[], none, rfl, Or.inl rfl, rfl, by omega⟩
  | succ it ih =>
    intro hit
    obtain ⟨ps, l, heq, hinv, hlen, hpool⟩ := ih (by omega)
    obtain ⟨es, l2, hpf, hinv2, hplen, hsome⟩ := poolFold_ok o it (by omega) 33 l hinv
    refine ⟨ps ++ [es], l2, by simp only [initFold, heq, hpf], hinv2, by simp [hlen], ?_⟩
    intro j hj
    rcases Nat.lt_succ_iff_lt_or_eq.mp hj with h | h
    · obtain ⟨p, hp, h33, hs⟩ := hpool j h
      exact ⟨p, by rw [List.get?_append (by omega : j < ps.length)]; exact hp, h33, hs⟩
    · subst h
      refine ⟨es, ?_, hplen, fun h1 x hx => hsome ?_ x hx⟩
      · rw [← hlen]
        exact List.get?_concat_length ps es
      · exact h1

theorem initFold_succ (o : BOracle) (it : ℕ) (ps : List (List (Option ℝ)))
    (l : Option ℝ) (es : List (Option ℝ)) (l2 : Option ℝ)
    (h1 : initFold o it = .ok (ps, l)) (h2 : poolFold o it 33 l = .ok (es, l2)) :
    initFold o (it + 1) = .ok (ps ++ [es], l2) := by
  simp only [initFold, h1, h2]

theorem initFold_add_latch (o : BOracle) (hadd : ∃ j, j < 33 ∧ (o 99 j).op = true) :
    ∃ ps, initFold o 100 = .ok (ps, some Backoff.MAX)
      ∧ ps.length = 100
      ∧ ∀ j, j < 100 → ∃ p, ps.get? j = some p ∧ p.length = 33
          ∧ (1 ≤ j → ∀ x ∈ p, ∃ r, x = some r) := by
  obtain ⟨ps, l, heq, hinv, hlen, hpool⟩ := initFold_ok o 99 (by norm_num)
  obtain ⟨es, l2, hpf, hinv2, hplen, hsome⟩ := poolFold_ok o 99 (by norm_num) 33 l hinv
  obtain ⟨es2, hpf2⟩ := poolFold99_add o 33 l hinv hadd
  rw [hpf] at hpf2
  have hes : es = es2 ∧ l2 = some Backoff.MAX := by
    have h := Except.ok.inj hpf2
    exact ⟨congrArg Prod.fst h, congrArg Prod.snd h⟩
  obtain ⟨hes1, hes2⟩ := hes
  subst hes2
  have h100 : (100 : ℕ) = 99 + 1 := rfl
  refine ⟨ps ++ [es], by rw [h100]; exact initFold_succ o 99 ps l es (some Backoff.MAX) heq hpf,
    by simp [hlen], ?_⟩
  intro j hj
  rcases Nat.lt_succ_iff_lt_or_eq.mp hj with h | h
  · obtain ⟨p, hp, h33, hs⟩ := hpool j (by omega)
    exact ⟨p, by rw [List.get?_append (by omega : j < ps.length)]; exact hp, h33, hs⟩
  · subst h
    refine ⟨es, ?_, hplen, fun h1 x hx => hsome (by omega) x hx⟩
    rw [show (99:ℕ) = ps.length from hlen.symm]
    exact List.get?_concat_length ps es

theorem initBackoff_add_latch (o : BOracle) (hadd : ∃ j, j < 33 ∧ (o 99 j).op = true) :
    ∃ ps, initBackoff o = .ok ⟨some Backoff.MAX, ps⟩
      ∧ ps.length = 100
      ∧ ∀ j, j < 100 → ∃ p, ps.get? j = some p ∧ p.length = 33
          ∧ (1 ≤ j → ∀ x ∈ p, ∃ r, x = some r) := by
  obtain ⟨ps, heq, hlen, hpool⟩ := initFold_add_latch o hadd
  exact ⟨ps, by unfold initBackoff; rw [heq], hlen, hpool⟩

/-! ## The all-sub oracle never latches the constructor -/

theorem value_oSub_lt (last : Option ℝ) (it : ℕ) (hit : it ≤ 99)
    (hinv : last = none ∨ ∃ v, last = some v ∧ v < Backoff.MAX) :
    ∃ r l2, Backoff.value last (it : ℤ) ⟨false, 1⟩ = (.ok r, l2)
      ∧ (l2 = none ∨ ∃ v, l2 = some v ∧ v < Backoff.MAX) := by
  have hl : ¬ Backoff.latched last := by
    rcases hinv with h | ⟨v, h, hlt⟩
    · rw [h]; exact not_latched_none
    · rw [h]; exact not_latched_of_lt hlt
  rcases Nat.eq_zero_or_pos it with h0 | h1
  · subst h0
    exact ⟨none, last, value_nonpos last _ _ hl (by norm_num), hinv⟩
  · have hv := value_normal last (it : ℤ) ⟨false, 1⟩ hl (by exact_mod_cast h1) (by exact_mod_cast hit)
    refine ⟨_, _, hv, Or.inr ⟨_, rfl, ?_⟩⟩
    have hrawle : logspace ((it : ℤ)).toNat ≤ Backoff.MAX := by
      rw [Int.toNat_natCast]
      exact logspace_le_MAX hit
    by_cases hth : Backoff.JITTER_TOP_LIM < logspace ((it : ℤ)).toNat
    · rw [jitted_sub hth rfl]
      apply conform_lt_MAX
      have he1 := Real.exp_one_gt_d9.le
      linarith
    · rw [jitted_below _ (not_lt.mp hth)]
      apply conform_lt_MAX
      have h1 := JTL_ub
      have h2 : (8.21:ℝ) ≤ Backoff.MAX - 1 := by norm_num [Backoff.MAX]
      push_neg at hth
      linarith

theorem poolFold_oSub_lt (it : ℕ) (hit : it ≤ 99) (k : ℕ) :
    ∀ last : Option ℝ, (last = none ∨ ∃ v, last = some v ∧ v < Backoff.MAX) →
    ∃ es l2, poolFold oSub it k last = .ok (es, l2)
      ∧ (l2 = none ∨ ∃ v, l2 = some v ∧ v < Backoff.MAX) := by
  induction k with
  | zero =>
    intro last hinv
    exact ⟨[], last, rfl, hinv⟩
  | succ k ih =>
    intro last hinv
    obtain ⟨es, l1, heq, hinv1⟩ := ih last hinv
    obtain ⟨r, l2, hv, hinv2⟩ := value_oSub_lt l1 it hit hinv1
    have ho : oSub it k = ⟨false, 1⟩ := rfl
    refine ⟨es ++ [r], l2, ?_, hinv2⟩
    simp only [poolFold, heq, ho, hv]

theorem initFold_oSub : ∀ it : ℕ, it ≤ 100 →
    ∃ ps l, initFold oSub it = .ok (ps, l)
      ∧ (l = none ∨ ∃ v, l = some v ∧ v < Backoff.MAX)
      ∧ ps.length = it := by
  intro it
  induction it with
  | zero =>
    intro _
    exact ⟨[], none, rfl, Or.inl rfl, rfl⟩
  | succ it ih =>
    intro hit
    obtain ⟨ps, l, heq, hinv, hlen⟩ := ih (by omega)
    obtain ⟨es, l2, hpf, hinv2⟩ := poolFold_oSub_lt it (by omega) 33 l hinv
    exact ⟨ps ++ [es], l2, by simp only [initFold, heq, hpf], hinv2, by simp [hlen]⟩

theorem initBackoff_oSub : ∃ ps l, initBackoff oSub = .ok ⟨l, ps⟩
    ∧ (l = none ∨ ∃ v, l = some v ∧ v < Backoff.MAX)
    ∧ ps.length = 100 := by
  obtain ⟨ps, l, heq, hinv, hlen⟩ := initFold_oSub 100 le_rfl
  exact ⟨ps, l, by unfold initBackoff; rw [heq], hinv, hlen⟩

/-! ## Normal forms of Backoff.precomp_v -/

theorem precomp_v_cap (ps : List (List (Option ℝ))) (a : ℤ) (wj : Bool) (pd : PDraw)
    (ha : Backoff.MAX_ATTEMPTS < a) :
    Backoff.precomp_v ps a wj pd = .error .runtimeError := by
  unfold Backoff.precomp_v
  rw [if_pos ha]

theorem precomp_v_ok (ps : List (List (Option ℝ))) (a : ℤ) (wj : Bool) (pd : PDraw)
    (h1 : 1 ≤ a) (h2 : a ≤ 99)
    (hpool : ∀ j, j < 100 → ∃ p, ps.get? j = some p ∧ p.length = 33
        ∧ (1 ≤ j → ∀ x ∈ p, ∃ r, x = some r)) :
    ∃ s, Backoff.precomp_v ps a wj pd = .ok s := by
  obtain ⟨p, hp, h33, hs⟩ := hpool a.toNat (by omega)
  have hlg : listGet ps a = some p := by
    unfold listGet
    rw [if_pos (by omega : (0:ℤ) ≤ a)]
    exact hp
  have hne : ¬ (p.isEmpty = true) := by
    intro habs
    rw [List.isEmpty_iff.mp habs] at h33
    simp at h33
  have hidx : pd.cidx % p.length < p.length := Nat.mod_lt _ (by omega)
  have hmem : p.getD (pd.cidx % p.length) none ∈ p := by
    rw [List.getD_eq_getElem?_getD, List.getElem?_eq_getElem hidx]
    exact List.getElem_mem hidx
  obtain ⟨r, hr⟩ := hs (by omega) _ hmem
  unfold Backoff.precomp_v
  rw [if_neg (not_lt.mpr (le_trans h2 (by norm_num [Backoff.MAX_ATTEMPTS])))]
  simp only [if_neg (by omega : ¬ a = 0), hlg, if_neg hne, hr]
  exact ⟨_, rfl⟩

theorem precomp_v_100 (ps : List (List (Option ℝ))) (wj : Bool) (pd : PDraw)
    (hlen : ps.length = 100) :
    Backoff.precomp_v ps 100 wj pd = .error .indexError := by
  have hlg : listGet ps (100 : ℤ) = none := by
    unfold listGet
    rw [if_pos (by norm_num : (0:ℤ) ≤ 100)]
    apply List.get?_eq_none.mpr
    simp [hlen]
  unfold Backoff.precomp_v
  rw [if_neg (by norm_num [Backoff.MAX_ATTEMPTS] : ¬ (100:ℤ) > Backoff.MAX_ATTEMPTS)]
  simp only [if_neg (by norm_num : ¬ (100:ℤ) = 0), hlg]

/-! ## Properties of the window trim -/

theorem getLast!_concat (x : ℚ) (q : List ℚ) : (q ++ [x]).getLast! = x :=
  List.getLast!_of_getLast? (List.getLast?_concat q)

theorem trim_length_le (w : ℚ) : ∀ q : List ℚ, (trim w q).length ≤ q.length
  | [] => le_rfl
  | x :: xs => by
    unfold trim
    split_ifs with h
    · exact le_trans (trim_length_le w xs) (by simp)
    · exact le_rfl

theorem trim_span (w : ℚ) (hw : 0 < w) :
    ∀ q : List ℚ, trim w q = [] ∨ (trim w q).getLast! - (trim w q).head! < w
  | [] => Or.inl rfl
  | x :: xs => by
    unfold trim
    split_ifs with h
    · exact trim_span w hw xs
    · right
      push_neg at h
      simpa using h

theorem trim_ne_nil (w : ℚ) (hw : 0 < w) : ∀ q : List ℚ, q ≠ [] → trim w q ≠ []
  | [], h => absurd rfl h
  | [x], _ => by
    have hc : ¬ (([x] : List ℚ).getLast! - x ≥ w) := by
      simp [List.getLast!_cons]
      linarith
    unfold trim
    rw [if_neg hc]
    simp
  | x :: y :: ys, _ => by
    unfold trim
    split_ifs with h
    · exact trim_ne_nil w hw (y :: ys) (by simp)
    · simp

theorem exit_shared_ne_nil (q : List ℚ) (now w : ℚ) (hw : 0 < w) :
    exit_shared q now w ≠ [] := by
  unfold exit_shared
  exact trim_ne_nil w hw _ (by simp)

theorem exit_shared_span (q : List ℚ) (now w : ℚ) (hw : 0 < w) :
    exit_shared q now w = []
    ∨ (exit_shared q now w).getLast! - (exit_shared q now w).head! < w := by
  unfold exit_shared
  exact trim_span w hw _

theorem exit_shared_length (q : List ℚ) (now w : ℚ) :
    (exit_shared q now w).length ≤ q.length + 1 := by
  simp only [exit_shared]
  split_ifs with h
  · calc (trim w ([] ++ [rndHE 4 now])).length ≤ ([] ++ [rndHE 4 now]).length :=
        trim_length_le w _
      _ ≤ q.length + 1 := by simp
  · calc (trim w (q ++ [rndHE 4 now])).length ≤ (q ++ [rndHE 4 now]).length :=
        trim_length_le w _
      _ = q.length + 1 := by simp

/-- C1: the claim says every acquire/release on a disabled instance
(`window_size_sec <= 0`) is an immediate no-op.  In the code `__init__` does
set `disabled = True`, but it returns before assigning `__calls_q__`,
`__lock__`, `__alock__` and `__timeit__`, and neither `__enter__` nor
`__exit__` (nor the async variants) ever reads `disabled` — they immediately
evaluate `self.__lock__`, so every subsequent acquire or release raises
`AttributeError` instead of being a no-op. -/
theorem c1_disabled_ops_raise :
    (RateLimiter.init 1 0).disabled = some true
    ∧ RateLimiter.enter (RateLimiter.init 1 0) = .error .attributeError
    ∧ RateLimiter.exit (RateLimiter.init 1 0) 5 = .error .attributeError := by
  refine ⟨?_, ?_, ?_⟩ <;>
    norm_num [RateLimiter.init, RateLimiter.enter, RateLimiter.exit]

/-- C7 (counterexample): a limiter configured with `burst_limit = 1`,
`window_size_sec = 1.017` has effective burst limit `B = 1`, yet three
releases recorded at times 0.1, 0.2, 0.3 (all inside one window) leave three
timestamps in the queue: `exit_shared` never consults `max_burst_limit`, so
the queue length immediately after a release is not bounded by `B`. -/
theorem c7_counterexample :
    (RateLimiter.init 1 (1017/1000)).max_burst_limit = 1
    ∧ (exit_shared (exit_shared (exit_shared [] (1/10) (1017/1000)) (2/10) (1017/1000))
        (3/10) (1017/1000)).length = 3 := by
  constructor
  · norm_num [RateLimiter.init]
  · norm_num [exit_shared, trim, rndHE, rhe, List.getLast!_cons]

/-- C7 (amended): a release appends exactly one timestamp and otherwise only
removes entries, so the queue grows by at most one per release; no bound in
terms of the burst limit holds. -/
theorem c7_amended_growth (q : List ℚ) (now w : ℚ) (_hw : 0 < w) :
    (exit_shared q now w).length ≤ q.length + 1 :=
  exit_shared_length q now w

theorem c7_witness :
    (0:ℚ) < 1 ∧ (exit_shared [] 1 1).length ≤ ([] : List ℚ).length + 1 :=
  ⟨by norm_num, c7_amended_growth [] 1 1 (by norm_num)⟩

/-- C8: for every enabled limiter (`window_size_sec > 0`), immediately after
every release the trimmed queue satisfies back - front < window_size_sec or
is a singleton (and it is never empty, since the release just appended). -/
theorem c8_trim_invariant (q : List ℚ) (now w : ℚ) (hw : 0 < w) :
    exit_shared q now w ≠ []
    ∧ ((exit_shared q now w).length = 1
       ∨ (exit_shared q now w).getLast! - (exit_shared q now w).head! < w) := by
  refine ⟨exit_shared_ne_nil q now w hw, ?_⟩
  rcases exit_shared_span q now w hw with h | h
  · exact absurd h (exit_shared_ne_nil q now w hw)
  · exact Or.inr h

theorem c8_witness :
    (0:ℚ) < 1
    ∧ (exit_shared [0] (1/2) 1 ≠ []
       ∧ ((exit_shared [0] (1/2) 1).length = 1
          ∨ (exit_shared [0] (1/2) 1).getLast! - (exit_shared [0] (1/2) 1).head! < 1)) :=
  ⟨by norm_num, c8_trim_invariant [0] (1/2) 1 (by norm_num)⟩

/-! ## Claims about the backoff curve -/

/-- C6: constructing a Backoff can itself set the saturation latch.  The
constructor calls `value(it)` 33 times for every `it` up to 99; the raw curve
value at the top index 99 equals `max_value`, so whenever at least one of the
33 draws of pool 99 picks the `add` operator, `_last_value` equals
`max_value` when `__init__` returns, and every later `value(attempt)` with
`1 <= attempt <= 100` on that instance returns `max_value` immediately. -/
theorem c6_constructor_latch (o : BOracle)
    (hadd : ∃ j, j < 33 ∧ (o 99 j).op = true) :
    ∃ ps, initBackoff o = .ok ⟨some Backoff.MAX, ps⟩
      ∧ logspace 99 = Backoff.MAX
      ∧ ∀ (a : ℤ) (d : JDraw), 1 ≤ a → a ≤ 100 →
          (Backoff.value (some Backoff.MAX) a d).fst = .ok (some Backoff.MAX) := by
  obtain ⟨ps, heq, _, _⟩ := initBackoff_add_latch o hadd
  refine ⟨ps, heq, logspace_99, ?_⟩
  intro a d _ h2
  rw [value_latched (some Backoff.MAX) a d latched_some_MAX (by exact h2)]

theorem c6_witness :
    (∃ j, j < 33 ∧ (oAdd 99 j).op = true)
    ∧ ∃ ps, initBackoff oAdd = .ok ⟨some Backoff.MAX, ps⟩
      ∧ logspace 99 = Backoff.MAX
      ∧ ∀ (a : ℤ) (d : JDraw), 1 ≤ a → a ≤ 100 →
          (Backoff.value (some Backoff.MAX) a d).fst = .ok (some Backoff.MAX) :=
  ⟨⟨0, by norm_num, rfl⟩, c6_constructor_latch oAdd ⟨0, by norm_num, rfl⟩⟩

/-- C5 (counterexample): the claim says a latched instance returns
`max_value` regardless of the requested attempt, but the cap check runs
before the latch check, so `value(101)` on a latched instance raises the
exhausted-attempts error instead of returning `max_value`. -/
theorem c5_counterexample :
    Backoff.value (some Backoff.MAX) 101 ⟨true, 1⟩
      = (.error .runtimeError, some Backoff.MAX) :=
  value_cap _ _ _ (by norm_num [Backoff.MAX_ATTEMPTS])

/-- C5 (amended): once `last_value >= max_value`, every subsequent
`value(attempt)` with `attempt <= MAX_ATTEMPTS` (including non-positive
attempts) returns exactly `max_value` and leaves `_last_value` untouched, so
the latch is never reset; attempts above the cap still raise. -/
theorem c5_amended_latch (v : ℝ) (a : ℤ) (d : JDraw)
    (hv : Backoff.MAX ≤ v) (ha : a ≤ 100) :
    Backoff.value (some v) a d = (.ok (some Backoff.MAX), some v) := by
  have hvpos : (0:ℝ) < v := lt_of_lt_of_le (by norm_num [Backoff.MAX]) hv
  exact value_latched (some v) a d ⟨ne_of_gt hvpos, by simpa using hv⟩ (by exact ha)

theorem c5_witness :
    Backoff.MAX ≤ Backoff.MAX ∧ (7:ℤ) ≤ 100
    ∧ Backoff.value (some Backoff.MAX) 7 ⟨true, 1⟩
        = (.ok (some Backoff.MAX), some Backoff.MAX) :=
  ⟨le_rfl, by norm_num, c5_amended_latch Backoff.MAX 7 ⟨true, 1⟩ le_rfl (by norm_num)⟩

/-- C3 (counterexample): the claim derives `JITTER_TOP_LIM` from `e^(pi/4)`,
but `HALF_PIE` in the source is `round(pi/2, 3) = 1.571`, not `pi/4`, so the
constant differs from the claimed value. -/
theorem c3_counterexample :
    Backoff.JITTER_TOP_LIM ≠ Real.exp (Real.pi / 4) * 1.111 := by
  have hpi : Real.pi / 4 < 1.571 := by
    have := Real.pi_lt_d2
    linarith
  have hexp : Real.exp (Real.pi / 4) < Real.exp 1.571 := Real.exp_lt_exp.mpr hpi
  have hlt : Real.exp (Real.pi / 4) * 1.111 < Real.exp 1.571 * 1.111 := by
    nlinarith [Real.exp_pos (Real.pi / 4)]
  unfold Backoff.JITTER_TOP_LIM HALF_PIE
  exact ne_of_gt hlt

/-- C3 (amended): `JITTER_TOP_LIM = e^HALF_PIE * 1.111` where
`HALF_PIE = 1.571` is pi/2 rounded to three decimals (within 1/2000 of
pi/2), not pi/4; when a raw curve value exceeds the threshold, the jitter
term `exp(u)` for the drawn `u` (uniform in `[min_value, HALF_PIE]` in the
source) is combined with the raw value by the randomly chosen add or
subtract operator. -/
theorem c3_amended_jitter_constants :
    Backoff.JITTER_TOP_LIM = Real.exp HALF_PIE * 1.111
    ∧ |Real.pi / 2 - HALF_PIE| < 1/2000
    ∧ ∀ (last : Option ℝ) (a : ℤ) (d : JDraw),
        ¬ Backoff.latched last → 1 ≤ a → a ≤ 99 →
        Backoff.JITTER_TOP_LIM < logspace a.toNat →
        (Backoff.value last a d).fst =
          .ok (some (conform (if d.op then logspace a.toNat + Real.exp d.u
                              else logspace a.toNat - Real.exp d.u))) := by
  refine ⟨rfl, ?_, ?_⟩
  · rw [show HALF_PIE = (1.571:ℝ) from rfl, abs_sub_lt_iff]
    have h1 := Real.pi_gt_d6
    have h2 := Real.pi_lt_d6
    constructor <;> linarith
  · intro last a d hl h1 h2 hth
    rw [value_normal last a d hl h1 h2]
    rcases hb : d.op with _ | _
    · rw [jitted_sub hth hb]
      simp
    · rw [jitted_add hth hb]
      simp

theorem c3_witness :
    ¬ Backoff.latched none ∧ ((1:ℤ) ≤ 99)
    ∧ Backoff.JITTER_TOP_LIM < logspace ((99:ℤ)).toNat
    ∧ (Backoff.value none 99 ⟨true, 1⟩).fst =
        .ok (some (conform (if (true : Bool) then logspace ((99:ℤ)).toNat + Real.exp 1
                            else logspace ((99:ℤ)).toNat - Real.exp 1))) := by
  have hth : Backoff.JITTER_TOP_LIM < logspace ((99:ℤ)).toNat := by
    rw [show ((99:ℤ)).toNat = 99 from rfl, logspace_99]
    exact JTL_lt_MAX
  exact ⟨not_latched_none, by norm_num, hth,
    c3_amended_jitter_constants.2.2 none 99 ⟨true, 1⟩ not_latched_none
      (by norm_num) (by norm_num) hth⟩

/-- C4 (counterexample): the claim says the unjittered sub-threshold sample
is deterministic on any instance regardless of prior calls, but on an
instance whose saturation latch was set (possible already during
construction, witness the all-add draw oracle) `value(1)` returns
`max_value`, while on a fresh instance it returns the clamped-and-rounded
raw value `conform(logspace(1))`, which differs — attempt 1 is below the
jitter threshold, so the claim applies to it. -/
theorem c4_counterexample :
    ((initBackoff oAdd).bind fun b => (Backoff.value b.lastValue 1 ⟨false, 1⟩).fst)
        = .ok (some Backoff.MAX)
    ∧ (Backoff.value none 1 ⟨false, 1⟩).fst = .ok (some (conform (logspace 1)))
    ∧ conform (logspace 1) ≠ Backoff.MAX
    ∧ logspace 1 ≤ Backoff.JITTER_TOP_LIM := by
  obtain ⟨ps, heq, _, _⟩ := initBackoff_add_latch oAdd ⟨0, by norm_num, rfl⟩
  refine ⟨?_, ?_, ?_, logspace_1_le_JTL⟩
  · rw [heq]
    simp only [Except.bind]
    rw [value_latched (some Backoff.MAX) 1 ⟨false, 1⟩ latched_some_MAX
      (by norm_num [Backoff.MAX_ATTEMPTS])]
  · rw [value_normal none 1 ⟨false, 1⟩ not_latched_none le_rfl (by norm_num)]
    rw [show ((1:ℤ)).toNat = 1 from rfl, jitted_below _ logspace_1_le_JTL]
  · apply ne_of_lt
    apply conform_lt_MAX
    have h1 := logspace_1_ub
    have h2 : (4.56:ℝ) ≤ Backoff.MAX - 1 := by norm_num [Backoff.MAX]
    linarith

/-- C4 (amended): on instances whose saturation latch is not set,
`value(attempt)` for an attempt in `1..99` whose raw curve value is at or
below `JITTER_TOP_LIM` returns the clamped-and-rounded raw value,
independently of the random draws, so any two such calls agree; a latched
instance instead returns `max_value` (see the counterexample), and `value`
takes no jitter flag at all. -/
theorem c4_amended_deterministic_unlatched (l1 l2 : Option ℝ) (a : ℤ)
    (d1 d2 : JDraw) (hl1 : ¬ Backoff.latched l1) (hl2 : ¬ Backoff.latched l2)
    (h1 : 1 ≤ a) (h2 : a ≤ 99) (hth : logspace a.toNat ≤ Backoff.JITTER_TOP_LIM) :
    (Backoff.value l1 a d1).fst = .ok (some (conform (logspace a.toNat)))
    ∧ (Backoff.value l1 a d1).fst = (Backoff.value l2 a d2).fst := by
  have e1 : (Backoff.value l1 a d1).fst = .ok (some (conform (logspace a.toNat))) := by
    rw [value_normal l1 a d1 hl1 h1 h2, jitted_below _ hth]
  have e2 : (Backoff.value l2 a d2).fst = .ok (some (conform (logspace a.toNat))) := by
    rw [value_normal l2 a d2 hl2 h1 h2, jitted_below _ hth]
  exact ⟨e1, e1.trans e2.symm⟩

theorem c4_witness :
    ¬ Backoff.latched none ∧ ¬ Backoff.latched (some 5)
    ∧ logspace ((1:ℤ)).toNat ≤ Backoff.JITTER_TOP_LIM
    ∧ ((Backoff.value none 1 ⟨true, 2⟩).fst = .ok (some (conform (logspace ((1:ℤ)).toNat)))
       ∧ (Backoff.value none 1 ⟨true, 2⟩).fst = (Backoff.value (some 5) 1 ⟨false, 3⟩).fst) := by
  have hl2 : ¬ Backoff.latched (some 5) := not_latched_of_lt (by norm_num [Backoff.MAX])
  have hth : logspace ((1:ℤ)).toNat ≤ Backoff.JITTER_TOP_LIM := by
    rw [show ((1:ℤ)).toNat = 1 from rfl]
    exact logspace_1_le_JTL
  exact ⟨not_latched_none, hl2, hth,
    c4_amended_deterministic_unlatched none (some 5) 1 ⟨true, 2⟩ ⟨false, 3⟩
      not_latched_none hl2 le_rfl (by norm_num) hth⟩

/-- C2 (counterexample): `MAX_ATTEMPTS = 100` passes the cap check
(`attempt > MAX_ATTEMPTS` is false), but `_logspace` and `precomputed` have
exactly 100 entries at indices 0..99, so on an unlatched instance (witness
the all-sub draw oracle, which never sets the latch during construction)
both `value(100)` and `precomp_v(100)` raise an index error, contradicting
the claim that every attempt up to the cap succeeds. -/
theorem c2_counterexample :
    ((initBackoff oSub).bind fun b => (Backoff.value b.lastValue 100 ⟨false, 1⟩).fst)
        = .error .indexError
    ∧ ((initBackoff oSub).bind fun b => Backoff.precomp_v b.precomputed 100 true ⟨0, 0, 1, 1⟩)
        = .error .indexError := by
  obtain ⟨ps, l, heq, hinv, hlen⟩ := initBackoff_oSub
  have hl : ¬ Backoff.latched l := by
    rcases hinv with h | ⟨v, hv, hlt⟩
    · rw [h]; exact not_latched_none
    · rw [hv]; exact not_latched_of_lt hlt
  constructor
  · rw [heq]
    simp only [Except.bind]
    rw [value_100_unlatched l ⟨false, 1⟩ hl]
  · rw [heq]
    simp only [Except.bind]
    exact precomp_v_100 ps true _ hlen

/-- C2 (amended): for every draw oracle, every attempt `1 <= attempt <= 99`
succeeds in both `value` and `precomp_v` on the constructed instance, and
every attempt above 100 raises exactly the exhausted-attempts condition;
attempt 100, although inside the claimed cap, hits the index error (see the
counterexample). -/
theorem c2_amended_valid_attempts (o : BOracle) (a : ℤ) (d : JDraw) (pd : PDraw)
    (h1 : 1 ≤ a) (h2 : a ≤ 99) :
    ∃ ps l r s, initBackoff o = .ok ⟨l, ps⟩
      ∧ (Backoff.value l a d).fst = .ok (some r)
      ∧ Backoff.precomp_v ps a true pd = .ok s
      ∧ (∀ a' : ℤ, 100 < a' →
          (Backoff.value l a' d).fst = .error .runtimeError
          ∧ Backoff.precomp_v ps a' true pd = .error .runtimeError) := by
  obtain ⟨ps, l, heq0, hinv, hlen, hpool⟩ := initFold_ok o 100 le_rfl
  have heq : initBackoff o = .ok ⟨l, ps⟩ := by
    unfold initBackoff
    rw [heq0]
  have hv : ∃ r, (Backoff.value l a d).fst = .ok (some r) := by
    by_cases hl : Backoff.latched l
    · exact ⟨Backoff.MAX,
        by rw [value_latched l a d hl (le_trans h2 (by norm_num [Backoff.MAX_ATTEMPTS]))]⟩
    · exact ⟨_, by rw [value_normal l a d hl h1 h2]⟩
  obtain ⟨r, hr⟩ := hv
  obtain ⟨s, hss⟩ := precomp_v_ok ps a true pd h1 h2 hpool
  refine ⟨ps, l, r, s, heq, hr, hss, ?_⟩
  intro a' ha'
  constructor
  · rw [value_cap l a' d (by exact ha')]
  · exact precomp_v_cap ps a' true pd (by exact ha')

theorem c2_witness :
    ((1:ℤ) ≤ 5 ∧ (5:ℤ) ≤ 99)
    ∧ ∃ ps l r s, initBackoff oAdd = .ok ⟨l, ps⟩
      ∧ (Backoff.value l 5 ⟨true, 1⟩).fst = .ok (some r)
      ∧ Backoff.precomp_v ps 5 true ⟨0, 0, 1, 1⟩ = .ok s
      ∧ (∀ a' : ℤ, 100 < a' →
          (Backoff.value l a' ⟨true, 1⟩).fst = .error .runtimeError
          ∧ Backoff.precomp_v ps a' true ⟨0, 0, 1, 1⟩ = .error .runtimeError) :=
  ⟨⟨by norm_num, by norm_num⟩,
    c2_amended_valid_attempts oAdd 5 ⟨true, 1⟩ ⟨0, 0, 1, 1⟩ (by norm_num) (by norm_num)⟩

theorem conform_mono {x y : ℝ} (h : x ≤ y) : conform x ≤ conform y := by
  unfold conform
  exact rndHE_mono _ (max_le_max (min_le_min le_rfl h) le_rfl)

/-- C9 (amended): the precomputed raw curve is non-decreasing in the attempt
index up to the cap, and so is the unjittered clamped-and-rounded value;
with jitter draws the sampled values are not monotone (see the
counterexample). -/
theorem c9_amended_monotone (i j : ℕ) (hij : i ≤ j) (_hj : j ≤ 99) :
    logspace i ≤ logspace j ∧ conform (logspace i) ≤ conform (logspace j) :=
  ⟨logspace_mono hij, conform_mono (logspace_mono hij)⟩

theorem c9_witness :
    ((1:ℕ) ≤ 2 ∧ (2:ℕ) ≤ 99)
    ∧ (logspace 1 ≤ logspace 2 ∧ conform (logspace 1) ≤ conform (logspace 2)) :=
  ⟨⟨by norm_num, by norm_num⟩, c9_amended_monotone 1 2 (by norm_num) (by norm_num)⟩

/-- C9 (counterexample): two consecutive above-threshold attempts on a fresh
instance, with the add operator drawn at attempt 10 and the subtract
operator drawn at attempt 11 (both with draw u = 1, inside the uniform range
`[min_value, HALF_PIE]`), give `sample(10) > sample(11)` — the jittered
sample is not non-decreasing for every outcome of the draws. -/
theorem c9_counterexample :
    (Backoff.value none 10 ⟨true, 1⟩).fst
        = .ok (some (conform (logspace 10 + Real.exp 1)))
    ∧ (Backoff.value (Backoff.value none 10 ⟨true, 1⟩).snd 11 ⟨false, 1⟩).fst
        = .ok (some (conform (logspace 11 - Real.exp 1)))
    ∧ conform (logspace 11 - Real.exp 1) < conform (logspace 10 + Real.exp 1) := by
  have e1 := Real.exp_one_gt_d9.le
  have e2 := Real.exp_one_lt_d9.le
  have h1011 : logspace 10 ≤ logspace 11 := logspace_mono (by norm_num)
  have h10 := logspace_10_lb
  have h11 := logspace_11_ub
  have hth10 : Backoff.JITTER_TOP_LIM < logspace 10 := JTL_lt_logspace_10
  have hth11 : Backoff.JITTER_TOP_LIM < logspace 11 := lt_of_lt_of_le hth10 h1011
  have hv1 : Backoff.value none 10 ⟨true, 1⟩
      = (.ok (some (conform (logspace 10 + Real.exp 1))),
         some (conform (logspace 10 + Real.exp 1))) := by
    rw [value_normal none 10 ⟨true, 1⟩ not_latched_none (by norm_num) (by norm_num)]
    rw [show ((10:ℤ)).toNat = 10 from rfl, jitted_add hth10 rfl]
  have hub1 : conform (logspace 10 + Real.exp 1) < Backoff.MAX := by
    apply conform_lt_MAX
    have hm : (17.66:ℝ) ≤ Backoff.MAX - 1 := by norm_num [Backoff.MAX]
    linarith
  have hv2 : (Backoff.value (Backoff.value none 10 ⟨true, 1⟩).snd 11 ⟨false, 1⟩).fst
      = .ok (some (conform (logspace 11 - Real.exp 1))) := by
    rw [hv1]
    rw [value_normal _ 11 ⟨false, 1⟩ (not_latched_of_lt hub1) (by norm_num) (by norm_num)]
    rw [show ((11:ℤ)).toNat = 11 from rfl, jitted_sub hth11 rfl]
  refine ⟨by rw [hv1], hv2, ?_⟩
  have hid1 : conform (logspace 11 - Real.exp 1) = rndHE 3 (logspace 11 - Real.exp 1) := by
    apply conform_id_of
    · have hm : Backoff.MIN ≤ (9.3:ℝ) := by norm_num [Backoff.MIN]
      linarith
    · have hm : (14.94:ℝ) ≤ Backoff.MAX := by norm_num [Backoff.MAX]
      linarith
  have hid2 : conform (logspace 10 + Real.exp 1) = rndHE 3 (logspace 10 + Real.exp 1) := by
    apply conform_id_of
    · have hm : Backoff.MIN ≤ (14.8:ℝ) := by norm_num [Backoff.MIN]
      linarith
    · have hm : (17.66:ℝ) ≤ Backoff.MAX := by norm_num [Backoff.MAX]
      linarith
  rw [hid1, hid2]
  have hb1 := rndHE_le 3 (logspace 11 - Real.exp 1)
  have hb2 := rndHE_ge 3 (logspace 10 + Real.exp 1)
  have hq : (1:ℝ) / (2 * 10 ^ (3:ℕ)) = 1/2000 := by norm_num
  rw [hq] at hb1 hb2
  linarith

theorem delay1_eq (j p : ℝ) :
    (if p ≠ 0 then p + 1 / j else j) = (if p = 0 then j else p + 1.0 / j) := by
  by_cases hp : p = 0
  · rw [if_neg (not_not_intro hp), if_pos hp]
  · rw [if_pos hp, if_neg hp]
    norm_num

/-- C10: `delay_with_jitter` computes exactly the specified formula: with
`jitter` drawn by `precomp_v(0, with_jitter=True)`, a set and non-zero
`previous_delay` yields `previous_delay + 1.0/jitter`, otherwise the delay
starts from `jitter`; then, if `min_val` is set and `delay <= min_val`,
`min_val` is added when `delay <= 0.777 * min_val` and `min_val / 2`
otherwise; the result is returned without further clamping. -/
theorem c10_next_delay_formula (pools : List (List (Option ℝ))) (pd : PDraw)
    (delay min_val : Option ℝ) :
    delay_with_jitter pools pd delay min_val
      = (Backoff.precomp_v pools 0 true pd).map
          (fun j => nextDelaySpec j delay min_val) := by
  unfold delay_with_jitter
  cases hpv : Backoff.precomp_v pools 0 true pd with
  | error e => rfl
  | ok j =>
    simp only [Except.map]
    unfold nextDelaySpec
    rcases delay with _ | p
    · rcases min_val with _ | m
      · simp [pyTruthy]
      · simp only [pyTruthy, Option.getD_some, false_and, if_false]
        split_ifs
        all_goals try rfl
        all_goals try (exfalso; first | tauto | linarith [mul_comm m (0.777:ℝ)])
        all_goals have hm : m = 0 := by tauto
        all_goals rw [hm]
        all_goals norm_num
    · simp only [pyTruthy, Option.getD_some]
      simp only [← delay1_eq j p]
      rcases min_val with _ | m
      · simp [pyTruthy]
      · simp only [pyTruthy, Option.getD_some, false_and, if_false]
        split_ifs
        all_goals try rfl
        all_goals try (exfalso; first | tauto | linarith [mul_comm m (0.777:ℝ)])
        all_goals have hm : m = 0 := by tauto
        all_goals rw [hm]
        all_goals norm_num
